import Mathlib

/-!
Shallow embedding of the `gotools` update pipeline
(pkg/gotools/{version,client,download,installer}.go and cmd/updatego/main.go).

Strings are modelled as Lean `String`; Go byte slices as `List Nat`;
fallible Go functions returning `(T, error)` become `Except String T`
(or `T × Option String` where the partial state matters).  Network and
file-system effects are passed in explicitly as the outcome values the
code would observe.
-/

/-- Auxiliary for Go strings.Split with a one-character separator:
walks the character list, cutting at every separator occurrence. -/
def splitCharAux (sep : Char) : List Char → List Char → List String
  | [], acc => [String.mk acc.reverse]
  | c :: rest, acc =>
    if c = sep then String.mk acc.reverse :: splitCharAux sep rest []
    else splitCharAux sep rest (c :: acc)

/-- Go strings.Split(s, sep) for a single-character separator.
Split("", sep) = [""] as in Go. -/
def goSplit (sep : Char) (s : String) : List String := splitCharAux sep s.data []

/-- Character-list version of Go strings.HasPrefix. -/
def listIsPre : List Char → List Char → Bool
  | [], _ => true
  | _ :: _, [] => false
  | p :: ps, c :: cs => p = c && listIsPre ps cs

/-- Go strings.HasPrefix(s, pre). -/
def goHasPre (s pre : String) : Bool := listIsPre pre.data s.data

/-- Go strings.TrimPrefix(s, pre): drops pre when it is a leading substring. -/
def goTrimPre (s pre : String) : String :=
  if goHasPre s pre then String.mk (s.data.drop pre.data.length) else s

/-- ASCII whitespace, the relevant fragment of Go unicode.IsSpace for
checksum bodies (which are ASCII). -/
def isSpaceChar (c : Char) : Bool :=
  c = ' ' || c = '\t' || c = '\n' || c = '\r' || c = '\x0b' || c = '\x0c'

/-- Auxiliary for Go strings.Fields: accumulates the current word, emitting
it at each whitespace run; empty words are dropped. -/
def fieldsAux : List Char → List Char → List String
  | [], [] => []
  | [], acc => [String.mk acc.reverse]
  | c :: rest, acc =>
    if isSpaceChar c then
      match acc with
      | [] => fieldsAux rest []
      | _ :: _ => String.mk acc.reverse :: fieldsAux rest []
    else fieldsAux rest (c :: acc)

/-- Go strings.Fields(s): whitespace-separated words, no empties. -/
def goFields (s : String) : List String := fieldsAux s.data []

/-- Go strings.TrimSpace(s) restricted to ASCII whitespace. -/
def goTrimSpace (s : String) : String :=
  String.mk (((s.data.dropWhile isSpaceChar).reverse.dropWhile isSpaceChar).reverse)

/-- All-digit run to a number; none on an empty or non-digit run
(mirrors the digit loop of Go strconv.Atoi). -/
def digitsToNat : List Char → Option Nat
  | [] => none
  | [c] => if c.isDigit then some (c.toNat - 48) else none
  | c :: rest =>
    if c.isDigit then
      match digitsToNat rest with
      | none => none
      | some n => some ((c.toNat - 48) * 10 ^ rest.length + n)
    else none

/-- Go strconv.Atoi: optional sign, then a non-empty digit run; anything
else is a parse error (overflow is not modelled, version components are
small). -/
def atoi (s : String) : Option Int :=
  match s.data with
  | [] => none
  | '+' :: rest => (digitsToNat rest).map Int.ofNat
  | '-' :: rest => (digitsToNat rest).map (fun n => -(n : Int))
  | l => (digitsToNat l).map Int.ofNat

/-- Joins path segments with a slash (strings.Join(elems, "/")). -/
def joinWithSlash : List String → String
  | [] => ""
  | [s] => s
  | s :: rest => s ++ "/" ++ joinWithSlash rest

/-- One step of lexical path cleaning: skips empty and dot segments, pops
on dotdot when possible; rooted paths drop a dotdot at the top, relative
ones keep it.  The accumulator is the reversed stack of kept segments. -/
def cleanSegStep (rooted : Bool) (acc : List String) (seg : String) : List String :=
  if seg = "" || seg = "." then acc
  else if seg = ".." then
    match acc with
    | [] => if rooted then [] else [".."]
    | top :: rest => if top = ".." then seg :: acc else rest
  else seg :: acc

/-- Go path/filepath.Clean for unix paths, by its standard lexical
segment semantics: resolves ".", "..", and repeated slashes. -/
def cleanPath (p : String) : String :=
  if p = "" then "."
  else
    let rooted := goHasPre p "/"
    let segs := goSplit '/' p
    let stack := (segs.foldl (cleanSegStep rooted) []).reverse
    let joined := joinWithSlash stack
    if rooted then (if joined = "" then "/" else "/" ++ joined)
    else (if joined = "" then "." else joined)

/-- Go path/filepath.Join(a, b): joins the non-empty elements with a slash
and cleans the result. -/
def filepathJoin (a b : String) : String :=
  if a = "" then (if b = "" then "" else cleanPath b)
  else if b = "" then cleanPath a
  else cleanPath (a ++ "/" ++ b)

/-- Go path/filepath.Dir(p): everything up to and including the last
slash, cleaned; "." when there is no slash. -/
def dirPath (p : String) : String :=
  let upto := (p.data.reverse.dropWhile (fun c => c ≠ '/')).reverse
  match upto with
  | [] => "."
  | l => cleanPath (String.mk l)

example : goSplit '.' "1.2.3" = ["1", "2", "3"] := by decide
example : goSplit '.' "" = [""] := by decide
example : atoi "123" = some 123 := by decide
example : atoi "a" = none := by decide
example : atoi "-7" = some (-7) := by decide
example : cleanPath "/r/lib/../lib2/x" = "/r/lib2/x" := by decide
example : cleanPath "/a/../../b" = "/b" := by decide
example : cleanPath "a/../../b" = "../b" := by decide
example : dirPath "/r/lib2/x" = "/r/lib2" := by decide
example : dirPath "abc" = "." := by decide
example : goFields "abc  def" = ["abc", "def"] := by decide
example : goTrimSpace "  x y " = "x y" := by decide

/-- Equality on Except results is decidable when it is on both sides;
used to evaluate the embedded functions on concrete inputs. -/
instance {ε α : Type} [DecidableEq ε] [DecidableEq α] : DecidableEq (Except ε α) := fun x y =>
  match x, y with
  | Except.ok a, Except.ok b => decidable_of_iff (a = b) (by simp)
  | Except.error e, Except.error f => decidable_of_iff (e = f) (by simp)
  | Except.ok _, Except.error _ => isFalse (by intro h; cases h)
  | Except.error _, Except.ok _ => isFalse (by intro h; cases h)

/-! ## Version resolver (pkg/gotools/version.go) -/

/-- A Go release feed entry, as decoded from the JSON feed. -/
structure GoRelease where
  version : String
  stable : Bool
deriving DecidableEq, Repr

/-- The release-selection scan of Checker.GetLatestVersion: the first
entry with stable=true whose version carries the "go" lead tag wins, the
tag is stripped; otherwise the no-stable-releases error. -/
def GetLatestVersion : List GoRelease → Except String String
  | [] => Except.error "no stable Go releases found"
  | r :: rest =>
    if r.stable && goHasPre r.version "go" then Except.ok (goTrimPre r.version "go")
    else GetLatestVersion rest

/-- Checker.NeedsUpdate: empty installed means fresh install; both strings
must have at least three dot components; components are then parsed and
compared in order major, minor, patch, returning at the first strict
difference, false when all three are equal. -/
def NeedsUpdate (installed latest : String) : Except String Bool :=
  if installed = "" then Except.ok true
  else
    let iParts := goSplit '.' installed
    let lParts := goSplit '.' latest
    if iParts.length < 3 || lParts.length < 3 then
      Except.error "invalid version format: versions must be in the format X.Y.Z"
    else
      match atoi (iParts.getD 0 "") with
      | none => Except.error ("invalid major version in " ++ installed)
      | some majorInstalled =>
      match atoi (lParts.getD 0 "") with
      | none => Except.error ("invalid major version in " ++ latest)
      | some majorLatest =>
      if majorInstalled < majorLatest then Except.ok true
      else if majorInstalled > majorLatest then Except.ok false
      else
      match atoi (iParts.getD 1 "") with
      | none => Except.error ("invalid minor version in " ++ installed)
      | some minorInstalled =>
      match atoi (lParts.getD 1 "") with
      | none => Except.error ("invalid minor version in " ++ latest)
      | some minorLatest =>
      if minorInstalled < minorLatest then Except.ok true
      else if minorInstalled > minorLatest then Except.ok false
      else
      match atoi (iParts.getD 2 "") with
      | none => Except.error ("invalid patch version in " ++ installed)
      | some patch1 =>
      match atoi (lParts.getD 2 "") with
      | none => Except.error ("invalid patch version in " ++ latest)
      | some patch2 =>
      if patch1 < patch2 then Except.ok true
      else if patch1 > patch2 then Except.ok false
      else Except.ok false

/-- Lexicographic strict order on (major, minor, patch) triples, the
order the spec prescribes for version comparison. -/
def versionLess (a b c d e f : Int) : Bool :=
  a < d || (a = d && (b < e || (b = e && c < f)))

example : NeedsUpdate "" "1.2.3" = Except.ok true := by decide
example : NeedsUpdate "1.2.3" "1.2.3" = Except.ok false := by decide
example : NeedsUpdate "1.2.0" "1.3.0" = Except.ok true := by decide
example : NeedsUpdate "2.0.0" "1.9.9" = Except.ok false := by decide
example : NeedsUpdate "1.a.1" "1.2.3"
    = Except.error "invalid minor version in 1.a.1" := by decide
example : NeedsUpdate "1.a.1" "2.0.0" = Except.ok true := by decide
example : NeedsUpdate "1.2.3.9" "1.2.3" = Except.ok false := by decide
example : GetLatestVersion
    [⟨"go1.17.1", true⟩, ⟨"go1.16.8", true⟩, ⟨"go1.18beta1", false⟩]
    = Except.ok "1.17.1" := by decide

/-! ## HTTP client helper (pkg/gotools/client.go) -/

/-- safeClose(body): closes body when it is non-nil.  Response bodies are
modelled by numeric ids; the returned list is the close events performed. -/
def safeClose : Option Nat → List Nat
  | none => []
  | some b => [b]

/-- Outcome of the poll loop inside getReleasesWithRetry: either the
overall budget expires with no successful attempt, or some attempt gets
an HTTP 200 whose response body has the given id. -/
inductive PollOutcome where
  | timeoutNoSuccess
  | successWith (bodyId : Nat)
deriving DecidableEq, Repr

/-- getReleasesWithRetry, as a trace of close events next to its result.
Go evaluates the arguments of a deferred call at the defer statement, so
the snapshot passed to the deferred safeClose is the value the body
variable has at that point, namely nil; the assignment body = resp.Body
inside the poll closure does not change the snapshot. -/
def getReleasesWithRetry (outcome : PollOutcome)
    (decoded : Except String (List GoRelease)) :
    Except String (List GoRelease) × List Nat :=
  -- var body io.ReadCloser            (nil here)
  let bodyAtDefer : Option Nat := none
  -- defer safeClose(body)             (argument evaluated now)
  let deferredArg := bodyAtDefer
  match outcome with
  | PollOutcome.timeoutNoSuccess =>
      (Except.error "failed to fetch version info", safeClose deferredArg)
  | PollOutcome.successWith _ =>
      match decoded with
      | Except.error e =>
          (Except.error ("failed to parse version info: " ++ e), safeClose deferredArg)
      | Except.ok rs => (Except.ok rs, safeClose deferredArg)

/-! ## Downloader (pkg/gotools/download.go) -/

/-- What one attempt of the Download poll loop observes from the network:
a request-construction error (terminal, stops polling), a transport
error or non-200 status or a copy failure after some bytes were written
(all retryable), or a successful full copy of the response body. -/
inductive DlAttempt where
  | reqErr (msg : String)
  | transportErr
  | badStatus (code : Nat)
  | copyFail (written : List Nat)
  | success (body : List Nat)
deriving DecidableEq, Repr

/-- Attempts the Download loop treats as retryable: transport errors,
non-200 statuses, and interrupted copies. -/
def retryable : DlAttempt → Bool
  | DlAttempt.transportErr => true
  | DlAttempt.badStatus _ => true
  | DlAttempt.copyFail _ => true
  | _ => false

/-- Result of the Download poll loop. -/
inductive DlResult where
  | ok
  | termErr (msg : String)
  | timedOut
deriving DecidableEq, Repr

/-- The poll loop of Downloader.Download over the destination file bytes:
every iteration first seeks to offset 0 and truncates the file to length
0, then copies whatever the attempt delivers; retryable failures loop,
a request error stops with that error, an exhausted attempt list is the
overall poll timeout. -/
def downloadLoop : List DlAttempt → List Nat → List Nat × DlResult
  | [], file => (file, DlResult.timedOut)
  | a :: rest, _ =>
    -- output.Seek(0, 0); output.Truncate(0)
    let file : List Nat := []
    match a with
    | DlAttempt.reqErr m => (file, DlResult.termErr m)
    | DlAttempt.transportErr => downloadLoop rest file
    | DlAttempt.badStatus _ => downloadLoop rest file
    | DlAttempt.copyFail w => downloadLoop rest (file ++ w)
    | DlAttempt.success b => (file ++ b, DlResult.ok)

/-- fetchChecksum token extraction: the first whitespace-delimited field
of the body when there is one, else the whitespace-trimmed body. -/
def extractChecksumToken (body : String) : String :=
  match goFields body with
  | p :: _ => p
  | [] => goTrimSpace body

/-- fetchChecksum over the outcome of the retried HTTP fetch of the
checksum body: on success the digest token is extracted from the body. -/
def fetchChecksum (bodyResult : Except String String) : Except String String :=
  match bodyResult with
  | Except.error e => Except.error ("failed to fetch checksum: " ++ e)
  | Except.ok body => Except.ok (extractChecksumToken body)

/-- Downloader.VerifyChecksum over the outcomes of its two effectful
steps: the fetched checksum body and the locally computed hex digest of
the file (calculateChecksum streams the file through SHA-256; the digest
string it produces is taken as input here).  Equality of the two strings
is the verdict; a mismatch is a false verdict, not an error. -/
def VerifyChecksum (bodyResult : Except String String)
    (digestResult : Except String String) : Except String Bool :=
  match fetchChecksum bodyResult with
  | Except.error e => Except.error e
  | Except.ok expectedSum =>
    match digestResult with
    | Except.error e => Except.error ("failed to calculate checksum: " ++ e)
    | Except.ok actualSum => Except.ok (expectedSum = actualSum)

example : downloadLoop [DlAttempt.transportErr, DlAttempt.copyFail [5, 5],
    DlAttempt.success [9, 8]] [7, 7, 7] = ([9, 8], DlResult.ok) := by decide
example : VerifyChecksum (Except.ok "abc123  go.tar.gz") (Except.ok "abc123")
    = Except.ok true := by decide
example : VerifyChecksum (Except.ok "abc123  go.tar.gz") (Except.ok "ffff")
    = Except.ok false := by decide
example : (getReleasesWithRetry (PollOutcome.successWith 7) (Except.ok [])).2
    = [] := by decide

/-! ## Installer (pkg/gotools/installer.go) -/

/-- The parts of the file system removeExisting inspects: whether the
prior installation directory InstallDir/go exists, and whether the two
entry-point symlinks exist in BinDir. -/
structure InstallFS where
  goDirExists : Bool
  goLinkExists : Bool
  gofmtLinkExists : Bool
deriving DecidableEq, Repr

/-- Installer.removeExisting: stats InstallDir/go and returns nil at once
when it does not exist; otherwise removes it, then removes each of the
two symlinks that Lstat finds.  Removal failures are not modelled (the
claims are about the success and absence logic). -/
def removeExisting (s : InstallFS) : InstallFS × Option String :=
  if s.goDirExists = false then (s, none)
  else
    let s1 : InstallFS := ⟨false, s.goLinkExists, s.gofmtLinkExists⟩
    let s2 : InstallFS := if s1.goLinkExists then ⟨s1.goDirExists, false, s1.gofmtLinkExists⟩ else s1
    let s3 : InstallFS := if s2.gofmtLinkExists then ⟨s2.goDirExists, s2.goLinkExists, false⟩ else s2
    (s3, none)

/-- Tar entry type tags handled by extractTarball. -/
inductive TarType where
  | dir
  | reg
  | symlink
  | other (c : Char)
deriving DecidableEq, Repr

/-- One tar record as extractTarball consumes it. -/
structure TarEntry where
  name : String
  typeflag : TarType
  mode : Nat
  linkname : String
  content : List Nat
deriving DecidableEq, Repr

/-- File-system writes extraction performs. -/
inductive FSWrite where
  | mkdirAll (path : String) (mode : Nat)
  | writeFile (path : String) (mode : Nat) (content : List Nat)
  | symlink (linkTarget : String) (path : String)
deriving DecidableEq, Repr

/-- Processing of a single tar entry inside extractTarball: the target is
filepath.Join(InstallDir, name); the guard rejects the entry when the
target does not have InstallDir as a string-prefix
(strings.HasPrefix(target, i.InstallDir)); accepted entries perform the
writes of their type arm, unrecognized types are skipped. -/
def processEntry (installDir : String) (e : TarEntry) : Except String (List FSWrite) :=
  let target := filepathJoin installDir e.name
  if goHasPre target installDir = false then
    Except.error ("invalid tar entry (path traversal attempt): " ++ e.name)
  else
    match e.typeflag with
    | TarType.dir => Except.ok [FSWrite.mkdirAll target e.mode]
    | TarType.reg =>
        Except.ok [FSWrite.mkdirAll (dirPath target) 493,
          FSWrite.writeFile target e.mode e.content]
    | TarType.symlink =>
        Except.ok [FSWrite.mkdirAll (dirPath target) 493,
          FSWrite.symlink e.linkname target]
    | TarType.other _ => Except.ok []

/-- Installer.extractTarball over the sequence of tar records: writes are
performed entry by entry until the first rejected entry, whose error is
returned; writes performed before the error are kept. -/
def extractTarball (installDir : String) : List TarEntry → List FSWrite × Option String
  | [] => ([], none)
  | e :: rest =>
    match processEntry installDir e with
    | Except.error msg => ([], some msg)
    | Except.ok ws =>
      let r := extractTarball installDir rest
      (ws ++ r.1, r.2)

/-- The policy the spec states for the traversal guard: the resolved
target must be a proper descendant of the normalized install root. -/
def isDescendantOfRoot (root target : String) : Bool :=
  goHasPre target (cleanPath root ++ "/")

/-- Outcome of waiting for the verification subprocess against the
deadline: it exits with a code first, or the deadline fires first. -/
inductive WaitOutcome where
  | exited (code : Nat)
  | deadlineExceeded
deriving DecidableEq, Repr

/-- Installer.runGoCommand over the captured pipe bytes and the wait
outcome: the pipe is drained into outputBytes before the wait; a nonzero
exit or a deadline returns an error before output.Write(outputBytes)
runs, so only a zero exit appends the captured bytes to the builder.
Result: (builder content, error). -/
def runGoCommand (captured : String) (w : WaitOutcome) (builder : String) :
    String × Option String :=
  let outputBytes := captured
  match w with
  | WaitOutcome.deadlineExceeded => (builder, some "context deadline exceeded")
  | WaitOutcome.exited code =>
    if code ≠ 0 then (builder, some ("command failed: exit status " ++ toString code))
    else (builder ++ outputBytes, none)

/-- Installer.Verify when the go symlink exists: runs the subprocess via
runGoCommand with an empty builder and, on error, wraps the builder
content and the error into the returned verification failure. -/
def Verify (captured : String) (w : WaitOutcome) : Option String :=
  let r := runGoCommand captured w ""
  match r.2 with
  | none => none
  | some e => some ("Go installation verification failed: " ++ r.1 ++ ": " ++ e)

example : removeExisting ⟨true, true, false⟩ = (⟨false, false, false⟩, none) := by decide
example : removeExisting ⟨false, true, true⟩ = (⟨false, true, true⟩, none) := by decide
example : extractTarball "/r/lib" [⟨"../../evil", TarType.reg, 420, "", [1]⟩]
    = ([], some "invalid tar entry (path traversal attempt): ../../evil") := by decide
example : extractTarball "/r/lib" [⟨"../lib2/x", TarType.reg, 420, "", [1]⟩]
    = ([FSWrite.mkdirAll "/r/lib2" 493, FSWrite.writeFile "/r/lib2/x" 420 [1]], none) := by decide
example : isDescendantOfRoot "/r/lib" "/r/lib2/x" = false := by decide
example : Verify "boom" (WaitOutcome.exited 1)
    = some "Go installation verification failed: : command failed: exit status 1" := by decide
example : Verify "go version go1.22.3" (WaitOutcome.exited 0) = none := by decide

/-! ## Orchestrator (cmd/updatego/main.go, func app) -/

/-- The pipeline stages of app, in source order. -/
inductive Stage where
  | resolve
  | compare
  | download
  | verifyChecksum
  | install
deriving DecidableEq, Repr

/-- The canonical stage order of the pipeline. -/
def pipelineOrder : List Stage :=
  [Stage.resolve, Stage.compare, Stage.download, Stage.verifyChecksum, Stage.install]

/-- The effectful outcomes app observes: the installed version string,
the result of GetLatestVersion, and the results of the download,
checksum-verification and install calls (each as the value the callee
returns when app reaches it). -/
structure AppEnv where
  installedVersion : String
  latestResult : Except String String
  downloadResult : Except String String
  verifyResult : Except String Bool
  installResult : Option String
deriving DecidableEq, Repr

/-- app from cmd/updatego/main.go: resolve versions, compare with
NeedsUpdate, stop when no update is needed, then download, verify the
checksum (refusing to install on a false verdict) and install.  Returns
the executed stages in order next to the error result. -/
def app (env : AppEnv) : List Stage × Option String :=
  match env.latestResult with
  | Except.error e => ([Stage.resolve], some ("failed to get latest version: " ++ e))
  | Except.ok latestVersion =>
    match NeedsUpdate env.installedVersion latestVersion with
    | Except.error e =>
        ([Stage.resolve, Stage.compare],
          some ("failed to check if update is needed: " ++ e))
    | Except.ok needsUpdate =>
      if needsUpdate = false then ([Stage.resolve, Stage.compare], none)
      else
        match env.downloadResult with
        | Except.error e =>
            ([Stage.resolve, Stage.compare, Stage.download],
              some ("failed to download latest version: " ++ e))
        | Except.ok _path =>
          match env.verifyResult with
          | Except.error e =>
              ([Stage.resolve, Stage.compare, Stage.download, Stage.verifyChecksum],
                some ("failed to verify downloaded version: " ++ e))
          | Except.ok false =>
              ([Stage.resolve, Stage.compare, Stage.download, Stage.verifyChecksum],
                some "downloaded version could not be verified")
          | Except.ok true =>
            match env.installResult with
            | some e =>
                (pipelineOrder, some ("failed to install Go: " ++ e))
            | none => (pipelineOrder, none)

example : app ⟨"1.22.3", Except.ok "1.22.3", Except.ok "/tmp/f", Except.ok true, none⟩
    = ([Stage.resolve, Stage.compare], none) := by decide
example : app ⟨"1.22.2", Except.ok "1.22.3", Except.ok "/tmp/f", Except.ok false, none⟩
    = ([Stage.resolve, Stage.compare, Stage.download, Stage.verifyChecksum],
        some "downloaded version could not be verified") := by decide
example : app ⟨"1.22.2", Except.ok "1.22.3", Except.ok "/tmp/f", Except.ok true, none⟩
    = (pipelineOrder, none) := by decide

/-! ## Helper lemmas -/

/-- When all six components of both version strings parse, NeedsUpdate
returns the lexicographic comparison of the two triples. -/
theorem needsUpdate_full_parse (s t : String) (a b c d e f : Int)
    (hs : s ≠ "")
    (hsl : 3 ≤ (goSplit '.' s).length) (htl : 3 ≤ (goSplit '.' t).length)
    (h0 : atoi ((goSplit '.' s).getD 0 "") = some a)
    (h1 : atoi ((goSplit '.' s).getD 1 "") = some b)
    (h2 : atoi ((goSplit '.' s).getD 2 "") = some c)
    (h3 : atoi ((goSplit '.' t).getD 0 "") = some d)
    (h4 : atoi ((goSplit '.' t).getD 1 "") = some e)
    (h5 : atoi ((goSplit '.' t).getD 2 "") = some f) :
    NeedsUpdate s t = Except.ok (versionLess a b c d e f) := by
  have hns : ¬((goSplit '.' s).length < 3) := Nat.not_lt.mpr hsl
  have hnt : ¬((goSplit '.' t).length < 3) := Nat.not_lt.mpr htl
  unfold NeedsUpdate versionLess
  rw [if_neg hs]
  simp only [hns, hnt, decide_False, Bool.false_or, Bool.or_self, if_false,
    h0, h1, h2, h3, h4, h5]
  rcases lt_trichotomy a d with had | had | had
  · simp [had, ne_of_lt had, not_lt_of_gt had]
  · subst had
    simp only [lt_irrefl, if_false, gt_iff_lt, decide_False, decide_True,
      Bool.true_and, Bool.false_or]
    rcases lt_trichotomy b e with hbe | hbe | hbe
    · simp [hbe, ne_of_lt hbe, not_lt_of_gt hbe]
    · subst hbe
      simp only [lt_irrefl, if_false, decide_False, decide_True,
        Bool.true_and, Bool.false_or]
      rcases lt_trichotomy c f with hcf | hcf | hcf
      · simp [hcf, not_lt_of_gt hcf]
      · subst hcf; simp [lt_irrefl]
      · simp [hcf, not_lt_of_gt hcf, lt_asymm hcf]
    · simp [hbe, ne_of_gt hbe, not_lt_of_gt hbe, lt_asymm hbe]
  · simp [had, ne_of_gt had, not_lt_of_gt had, lt_asymm had]

/-- When the two major components parse and already differ strictly, the
comparison is decided there and no later component is examined. -/
theorem needsUpdate_major_decides (s t : String) (a d : Int)
    (hs : s ≠ "")
    (hsl : 3 ≤ (goSplit '.' s).length) (htl : 3 ≤ (goSplit '.' t).length)
    (h0 : atoi ((goSplit '.' s).getD 0 "") = some a)
    (h3 : atoi ((goSplit '.' t).getD 0 "") = some d)
    (had : a < d) :
    NeedsUpdate s t = Except.ok true := by
  have hns : ¬((goSplit '.' s).length < 3) := Nat.not_lt.mpr hsl
  have hnt : ¬((goSplit '.' t).length < 3) := Nat.not_lt.mpr htl
  unfold NeedsUpdate
  rw [if_neg hs]
  simp only [hns, hnt, decide_False, Bool.false_or, Bool.or_self, if_false, h0, h3]
  simp [had]

/-! ## Claims -/

/-- C1: the traversal guard of extractTarball must reject any entry whose
resolved target is not a descendant of the normalized install root, even
when the unsafe path shares a string token with the root.  Evidence of
the divergence: with install root "/r/lib", the entry "../lib2/x"
resolves to "/r/lib2/x", which is not a descendant of the root, yet the
string Has-Pre guard accepts it and the file is written into the sibling
directory; a plain "../../evil" entry, by contrast, is rejected. -/
theorem extractTarball_sibling_escape_is_written :
    extractTarball "/r/lib" [⟨"../lib2/x", TarType.reg, 420, "", [1]⟩]
      = ([FSWrite.mkdirAll "/r/lib2" 493, FSWrite.writeFile "/r/lib2/x" 420 [1]], none)
    ∧ filepathJoin "/r/lib" "../lib2/x" = "/r/lib2/x"
    ∧ isDescendantOfRoot "/r/lib" (filepathJoin "/r/lib" "../lib2/x") = false
    ∧ extractTarball "/r/lib" [⟨"../../evil", TarType.reg, 420, "", [1]⟩]
      = ([], some "invalid tar entry (path traversal attempt): ../../evil") := by
  refine ⟨by decide, by decide, by decide, by decide⟩

/-- C2 counterexample: the claim states that any component that fails to
parse yields a non-nil error, but when the major components already
differ the comparison returns without parsing further components:
NeedsUpdate("1.a.1", "2.0.0") = (true, nil) despite the non-integer
minor component. -/
theorem needsUpdate_parse_error_swallowed :
    NeedsUpdate "1.a.1" "2.0.0" = Except.ok true := by decide

/-- C2 amended: empty installed is always (true, nil); components are
parsed lazily in order major, minor, patch and the function returns at
the first strict difference, so a malformed component raises an error
only when every earlier component pair parsed and compared equal; when
all six components parse the result is the lexicographic comparison of
the triples; the five concrete examples of the spec all hold. -/
theorem needsUpdate_lazy_lexicographic :
    (∀ l : String, NeedsUpdate "" l = Except.ok true)
    ∧ NeedsUpdate "1.2.3" "1.2.3" = Except.ok false
    ∧ NeedsUpdate "1.2.0" "1.3.0" = Except.ok true
    ∧ NeedsUpdate "2.0.0" "1.9.9" = Except.ok false
    ∧ NeedsUpdate "1.a.1" "1.2.3" = Except.error "invalid minor version in 1.a.1"
    ∧ (∀ (s t : String) (a b c d e f : Int), s ≠ "" →
        3 ≤ (goSplit '.' s).length → 3 ≤ (goSplit '.' t).length →
        atoi ((goSplit '.' s).getD 0 "") = some a →
        atoi ((goSplit '.' s).getD 1 "") = some b →
        atoi ((goSplit '.' s).getD 2 "") = some c →
        atoi ((goSplit '.' t).getD 0 "") = some d →
        atoi ((goSplit '.' t).getD 1 "") = some e →
        atoi ((goSplit '.' t).getD 2 "") = some f →
        NeedsUpdate s t = Except.ok (versionLess a b c d e f))
    ∧ (∀ (s t : String) (a d : Int), s ≠ "" →
        3 ≤ (goSplit '.' s).length → 3 ≤ (goSplit '.' t).length →
        atoi ((goSplit '.' s).getD 0 "") = some a →
        atoi ((goSplit '.' t).getD 0 "") = some d →
        a < d → NeedsUpdate s t = Except.ok true) := by
  refine ⟨fun l => rfl, by decide, by decide, by decide, by decide, ?_, ?_⟩
  · intro s t a b c d e f hs hsl htl h0 h1 h2 h3 h4 h5
    exact needsUpdate_full_parse s t a b c d e f hs hsl htl h0 h1 h2 h3 h4 h5
  · intro s t a d hs hsl htl h0 h3 had
    exact needsUpdate_major_decides s t a d hs hsl htl h0 h3 had

/-- C2 witness: the amended theorem applied at concrete inputs, with the
hypotheses discharged by evaluation. -/
theorem needsUpdate_lazy_lexicographic_check :
    NeedsUpdate "" "9.9.9" = Except.ok true
    ∧ NeedsUpdate "1.0.0" "2.5.5" = Except.ok true :=
  ⟨needsUpdate_lazy_lexicographic.1 "9.9.9",
    needsUpdate_lazy_lexicographic.2.2.2.2.2.2 "1.0.0" "2.5.5" 1 2 (by decide)
      (by decide) (by decide) (by decide) (by decide) (by decide)⟩

/-- C10: version strings with more than three dot components are
accepted whenever the first three components of each side parse; the
extra components, integer or not, are never examined, and the result is
the lexicographic comparison of the first three. -/
theorem needsUpdate_ignores_extra_components :
    ∀ (s t : String) (a b c d e f : Int),
    3 ≤ (goSplit '.' s).length → 3 ≤ (goSplit '.' t).length →
    atoi ((goSplit '.' s).getD 0 "") = some a →
    atoi ((goSplit '.' s).getD 1 "") = some b →
    atoi ((goSplit '.' s).getD 2 "") = some c →
    atoi ((goSplit '.' t).getD 0 "") = some d →
    atoi ((goSplit '.' t).getD 1 "") = some e →
    atoi ((goSplit '.' t).getD 2 "") = some f →
    NeedsUpdate s t = Except.ok (versionLess a b c d e f) := by
  intro s t a b c d e f hsl htl h0 h1 h2 h3 h4 h5
  have hs : s ≠ "" := by
    intro hempty
    rw [hempty] at hsl
    simp [goSplit, splitCharAux] at hsl
  exact needsUpdate_full_parse s t a b c d e f hs hsl htl h0 h1 h2 h3 h4 h5

/-- C10 witness: a fourth numeric component and a fourth non-integer
component are both ignored, and equal first triples give false. -/
theorem needsUpdate_ignores_extra_components_check :
    NeedsUpdate "1.2.3.9" "1.2.3" = Except.ok (versionLess 1 2 3 1 2 3)
    ∧ NeedsUpdate "1.2.3.a" "1.2.3" = Except.ok (versionLess 1 2 3 1 2 3)
    ∧ versionLess 1 2 3 1 2 3 = false :=
  ⟨needsUpdate_ignores_extra_components "1.2.3.9" "1.2.3" 1 2 3 1 2 3 (by decide)
      (by decide) (by decide) (by decide) (by decide) (by decide) (by decide) (by decide),
    needsUpdate_ignores_extra_components "1.2.3.a" "1.2.3" 1 2 3 1 2 3 (by decide)
      (by decide) (by decide) (by decide) (by decide) (by decide) (by decide) (by decide),
    by decide⟩

/-- C3: VerifyChecksum over a successfully fetched checksum body and a
successfully computed local digest returns the equality verdict of the
extracted token and the digest: true exactly on a match, false on a
mismatch, and a mismatch is never an error. -/
theorem verifyChecksum_mismatch_is_false_not_error :
    ∀ (body digest : String),
    VerifyChecksum (Except.ok body) (Except.ok digest)
        = Except.ok (decide (extractChecksumToken body = digest))
    ∧ (extractChecksumToken body = digest →
        VerifyChecksum (Except.ok body) (Except.ok digest) = Except.ok true)
    ∧ (extractChecksumToken body ≠ digest →
        VerifyChecksum (Except.ok body) (Except.ok digest) = Except.ok false) := by
  intro body digest
  refine ⟨rfl, ?_, ?_⟩ <;> intro h <;> simp [VerifyChecksum, fetchChecksum, h]

/-- C3 witness: a matching token answers true, a differing digest
answers false, on a body in the common hash-then-filename layout. -/
theorem verifyChecksum_mismatch_is_false_not_error_check :
    VerifyChecksum (Except.ok "abc123  go.tar.gz") (Except.ok "abc123") = Except.ok true
    ∧ VerifyChecksum (Except.ok "abc123  go.tar.gz") (Except.ok "ffff") = Except.ok false :=
  ⟨(verifyChecksum_mismatch_is_false_not_error "abc123  go.tar.gz" "abc123").2.1 (by decide),
    (verifyChecksum_mismatch_is_false_not_error "abc123  go.tar.gz" "ffff").2.2 (by decide)⟩

/-- C4: every iteration of the Download poll loop truncates the
destination file before copying, so the loop result is independent of
the incoming file content, and a run of retryable failures followed by
a successful attempt ends with the file holding exactly the bytes of
the successful response body. -/
theorem download_retry_resets_file :
    (∀ (a : DlAttempt) (rest : List DlAttempt) (f g : List Nat),
      downloadLoop (a :: rest) f = downloadLoop (a :: rest) g)
    ∧ (∀ (fails : List DlAttempt) (body init : List Nat),
      (∀ a ∈ fails, retryable a = true) →
      downloadLoop (fails ++ [DlAttempt.success body]) init = (body, DlResult.ok)) := by
  constructor
  · intro a rest f g
    rfl
  · intro fails
    induction fails with
    | nil =>
      intro body init _
      simp [downloadLoop]
    | cons a rest ih =>
      intro body init h
      have ha : retryable a = true := h a (List.mem_cons_self a rest)
      have hrest : ∀ x ∈ rest, retryable x = true :=
        fun x hx => h x (List.mem_cons_of_mem a hx)
      cases a with
      | transportErr => simpa [downloadLoop] using ih body [] hrest
      | badStatus code => simpa [downloadLoop] using ih body [] hrest
      | copyFail w => simpa [downloadLoop] using ih body w hrest
      | reqErr m => simp [retryable] at ha
      | success b => simp [retryable] at ha

/-- C4 witness: a transport error and an interrupted copy followed by a
successful attempt leave exactly the successful body, starting from a
non-empty stale file. -/
theorem download_retry_resets_file_check :
    downloadLoop [DlAttempt.transportErr, DlAttempt.copyFail [5, 5],
        DlAttempt.success [9, 8]] [7, 7, 7] = ([9, 8], DlResult.ok) :=
  download_retry_resets_file.2 [DlAttempt.transportErr, DlAttempt.copyFail [5, 5]]
    [9, 8] [7, 7, 7] (by decide)

/-- C5: the release scan returns the stripped identifier of the first
feed entry that is stable and carries the expected tag, regardless of
later entries; when no entry qualifies it returns the no-stable-release
error; on the spec feed it returns 1.17.1. -/
theorem getLatestVersion_first_stable_wins :
    (∀ (pre post : List GoRelease) (r : GoRelease),
      (∀ x ∈ pre, ¬(x.stable = true ∧ goHasPre x.version "go" = true)) →
      r.stable = true → goHasPre r.version "go" = true →
      GetLatestVersion (pre ++ r :: post) = Except.ok (goTrimPre r.version "go"))
    ∧ (∀ rs : List GoRelease,
      (∀ x ∈ rs, ¬(x.stable = true ∧ goHasPre x.version "go" = true)) →
      GetLatestVersion rs = Except.error "no stable Go releases found")
    ∧ GetLatestVersion [⟨"go1.17.1", true⟩, ⟨"go1.16.8", true⟩, ⟨"go1.18beta1", false⟩]
        = Except.ok "1.17.1" := by
  refine ⟨?_, ?_, by decide⟩
  · intro pre
    induction pre with
    | nil =>
      intro post r _ hs hp
      simp [GetLatestVersion, hs, hp]
    | cons x xs ih =>
      intro post r hpre hs hp
      have hx := hpre x (List.mem_cons_self x xs)
      have hcond : (x.stable && goHasPre x.version "go") = false := by
        cases hxs : x.stable <;> cases hxp : goHasPre x.version "go" <;> simp_all
      simp only [List.cons_append, GetLatestVersion, hcond, Bool.false_eq_true, if_false]
      exact ih post r (fun y hy => hpre y (List.mem_cons_of_mem x hy)) hs hp
  · intro rs
    induction rs with
    | nil => intro _; rfl
    | cons x xs ih =>
      intro hall
      have hx := hall x (List.mem_cons_self x xs)
      have hcond : (x.stable && goHasPre x.version "go") = false := by
        cases hxs : x.stable <;> cases hxp : goHasPre x.version "go" <;> simp_all
      simp only [GetLatestVersion, hcond, Bool.false_eq_true, if_false]
      exact ih (fun y hy => hall y (List.mem_cons_of_mem x hy))

/-- C5 witness: an unstable entry ahead of the first stable one is
skipped and the stable identifier is returned, stripped. -/
theorem getLatestVersion_first_stable_wins_check :
    GetLatestVersion [⟨"go1.18beta1", false⟩, ⟨"go1.17.1", true⟩, ⟨"go1.16.8", true⟩]
        = Except.ok (goTrimPre "go1.17.1" "go") :=
  getLatestVersion_first_stable_wins.1 [⟨"go1.18beta1", false⟩] [⟨"go1.16.8", true⟩]
    ⟨"go1.17.1", true⟩ (by decide) (by decide) (by decide)

/-- C6: the claim states the response body obtained during a successful
poll attempt is closed exactly once, but the deferred safeClose receives
the value the body variable had when the defer statement executed, which
is nil; the acquired body is therefore never closed: its id appears zero
times in the close trace, on both the decode-success and decode-failure
outcomes. -/
theorem getReleases_body_never_closed :
    ∀ (b : Nat) (decoded : Except String (List GoRelease)),
    (getReleasesWithRetry (PollOutcome.successWith b) decoded).2 = []
    ∧ (getReleasesWithRetry (PollOutcome.successWith b) decoded).2.count b = 0 := by
  intro b decoded
  cases decoded <;> exact ⟨rfl, rfl⟩

/-- C7 counterexample: with the prior installation directory absent and
a prior go symlink present, removeExisting returns nil immediately and
the symlink survives, contradicting the claim that an existing symlink
is removed even when the directory does not exist. -/
theorem removeExisting_skips_symlinks_without_dir :
    removeExisting ⟨false, true, false⟩ = (⟨false, true, false⟩, none)
    ∧ (removeExisting ⟨false, true, false⟩).1.goLinkExists = true := by
  exact ⟨by decide, by decide⟩

/-- C7 amended: removeExisting always returns nil on the modelled
states; when the prior installation directory is absent it returns at
once leaving the file system untouched, symlinks included; only when
the directory exists does it remove the directory and whichever of the
two symlinks exist. -/
theorem removeExisting_success_and_removal :
    ∀ s : InstallFS,
    (removeExisting s).2 = none
    ∧ (s.goDirExists = false → (removeExisting s).1 = s)
    ∧ (s.goDirExists = true → (removeExisting s).1 = ⟨false, false, false⟩) := by
  intro s
  rcases s with ⟨gd, gl, gf⟩
  cases gd <;> cases gl <;> cases gf <;> exact ⟨by decide, by decide, by decide⟩

/-- C7 witness: the amended theorem applied at a state with the
directory and both symlinks present, and at one with nothing present. -/
theorem removeExisting_success_and_removal_check :
    (removeExisting ⟨true, true, true⟩).1 = ⟨false, false, false⟩
    ∧ (removeExisting ⟨false, false, false⟩).1 = ⟨false, false, false⟩ :=
  ⟨(removeExisting_success_and_removal ⟨true, true, true⟩).2.2 rfl,
    (removeExisting_success_and_removal ⟨false, false, false⟩).2.1 rfl⟩

/-- C9: the claim states that a non-zero exit before the deadline yields
an error carrying the captured combined output; the code does return a
non-nil error, but output.Write(outputBytes) runs only after a
successful wait, so the builder the error message embeds is empty while
the same bytes would have been attached on a zero exit. -/
theorem verify_error_lacks_captured_output :
    Verify "go: boom" (WaitOutcome.exited 1)
        = some "Go installation verification failed: : command failed: exit status 1"
    ∧ (runGoCommand "go: boom" (WaitOutcome.exited 1) "").1 = ""
    ∧ (runGoCommand "go: boom" (WaitOutcome.exited 1) "").2.isSome = true
    ∧ (runGoCommand "go: boom" (WaitOutcome.exited 0) "").1 = "go: boom" := by
  exact ⟨by decide, by decide, by decide, by decide⟩


/-- C8: the pipeline of app runs its stages in the fixed order resolve,
compare, download, verify checksum, install, executing each at most once
and never reaching a later stage past a refusing earlier one: a false
NeedsUpdate verdict stops the run cleanly before download, a false
checksum verdict means install is never executed, a resolution error
aborts after resolve alone, and a download error aborts before the
checksum stage. -/
theorem app_stage_order_and_aborts (env : AppEnv) :
    (app env).1 <+: pipelineOrder
    ∧ (app env).1.Nodup
    ∧ (∀ latest, env.latestResult = Except.ok latest →
        NeedsUpdate env.installedVersion latest = Except.ok false →
        app env = ([Stage.resolve, Stage.compare], none))
    ∧ (env.verifyResult = Except.ok false → Stage.install ∉ (app env).1)
    ∧ (∀ e, env.latestResult = Except.error e →
        app env = ([Stage.resolve], some ("failed to get latest version: " ++ e)))
    ∧ (∀ latest e, env.latestResult = Except.ok latest →
        NeedsUpdate env.installedVersion latest = Except.ok true →
        env.downloadResult = Except.error e →
        app env = ([Stage.resolve, Stage.compare, Stage.download],
          some ("failed to download latest version: " ++ e))) := by
  rcases env with ⟨iv, lr, dr, vr, ir⟩
  cases lr with
  | error e0 =>
    refine ⟨⟨[Stage.compare, Stage.download, Stage.verifyChecksum, Stage.install], rfl⟩,
      (by decide : List.Nodup [Stage.resolve]), ?_, ?_, ?_, ?_⟩
    · intro latest hl; exact Except.noConfusion hl
    · intro _; exact (by decide : Stage.install ∉ [Stage.resolve])
    · intro e hl
      cases hl
      rfl
    · intro latest e hl; exact Except.noConfusion hl
  | ok latest0 =>
    cases hnu : NeedsUpdate iv latest0 with
    | error e1 =>
      have happ : app ⟨iv, Except.ok latest0, dr, vr, ir⟩
          = ([Stage.resolve, Stage.compare],
            some ("failed to check if update is needed: " ++ e1)) := by
        simp only [app, hnu]
      refine ⟨?_, ?_, ?_, ?_, ?_, ?_⟩
      · rw [happ]
        exact ⟨[Stage.download, Stage.verifyChecksum, Stage.install], rfl⟩
      · rw [happ]
        exact (by decide : List.Nodup [Stage.resolve, Stage.compare])
      · intro latest hl hfalse
        cases hl
        rw [hnu] at hfalse
        exact Except.noConfusion hfalse
      · intro _
        rw [happ]
        exact (by decide : Stage.install ∉ [Stage.resolve, Stage.compare])
      · intro e hl; exact Except.noConfusion hl
      · intro latest e hl htrue
        cases hl
        rw [hnu] at htrue
        exact Except.noConfusion htrue
    | ok b =>
      cases b with
      | false =>
        have happ : app ⟨iv, Except.ok latest0, dr, vr, ir⟩
            = ([Stage.resolve, Stage.compare], none) := by
          simp only [app, hnu]
          rfl
        refine ⟨?_, ?_, ?_, ?_, ?_, ?_⟩
        · rw [happ]
          exact ⟨[Stage.download, Stage.verifyChecksum, Stage.install], rfl⟩
        · rw [happ]
          exact (by decide : List.Nodup [Stage.resolve, Stage.compare])
        · intro latest hl _
          cases hl
          exact happ
        · intro _
          rw [happ]
          exact (by decide : Stage.install ∉ [Stage.resolve, Stage.compare])
        · intro e hl; exact Except.noConfusion hl
        · intro latest e hl htrue
          cases hl
          rw [hnu] at htrue
          cases htrue
      | true =>
        have hnotfalse : ∀ latest, (Except.ok latest0 : Except String String) = Except.ok latest →
            NeedsUpdate iv latest = Except.ok false →
            app ⟨iv, Except.ok latest0, dr, vr, ir⟩ = ([Stage.resolve, Stage.compare], none) := by
          intro latest hl hfalse
          cases hl
          rw [hnu] at hfalse
          cases hfalse
        cases dr with
        | error e2 =>
          have happ : app ⟨iv, Except.ok latest0, Except.error e2, vr, ir⟩
              = ([Stage.resolve, Stage.compare, Stage.download],
                some ("failed to download latest version: " ++ e2)) := by
            simp only [app, hnu]
            rfl
          refine ⟨?_, ?_, hnotfalse, ?_, ?_, ?_⟩
          · rw [happ]
            exact ⟨[Stage.verifyChecksum, Stage.install], rfl⟩
          · rw [happ]
            exact (by decide : List.Nodup [Stage.resolve, Stage.compare, Stage.download])
          · intro _
            rw [happ]
            exact (by decide : Stage.install ∉ [Stage.resolve, Stage.compare, Stage.download])
          · intro e hl; exact Except.noConfusion hl
          · intro latest e hl _ hdl
            cases hl
            cases hdl
            exact happ
        | ok p =>
          have hnodl : ∀ latest e, (Except.ok latest0 : Except String String) = Except.ok latest →
              NeedsUpdate iv latest = Except.ok true →
              (Except.ok p : Except String String) = Except.error e →
              app ⟨iv, Except.ok latest0, Except.ok p, vr, ir⟩
                = ([Stage.resolve, Stage.compare, Stage.download],
                  some ("failed to download latest version: " ++ e)) := by
            intro latest e _ _ hdl
            exact Except.noConfusion hdl
          cases vr with
          | error e3 =>
            have happ : app ⟨iv, Except.ok latest0, Except.ok p, Except.error e3, ir⟩
                = ([Stage.resolve, Stage.compare, Stage.download, Stage.verifyChecksum],
                  some ("failed to verify downloaded version: " ++ e3)) := by
              simp only [app, hnu]
              rfl
            refine ⟨?_, ?_, hnotfalse, ?_, ?_, hnodl⟩
            · rw [happ]
              exact ⟨[Stage.install], rfl⟩
            · rw [happ]
              exact (by decide :
                List.Nodup [Stage.resolve, Stage.compare, Stage.download, Stage.verifyChecksum])
            · intro hv; exact Except.noConfusion hv
            · intro e hl; exact Except.noConfusion hl
          | ok verdict =>
            cases verdict with
            | false =>
              have happ : app ⟨iv, Except.ok latest0, Except.ok p, Except.ok false, ir⟩
                  = ([Stage.resolve, Stage.compare, Stage.download, Stage.verifyChecksum],
                    some "downloaded version could not be verified") := by
                simp only [app, hnu]
                rfl
              refine ⟨?_, ?_, hnotfalse, ?_, ?_, hnodl⟩
              · rw [happ]
                exact ⟨[Stage.install], rfl⟩
              · rw [happ]
                exact (by decide :
                  List.Nodup [Stage.resolve, Stage.compare, Stage.download, Stage.verifyChecksum])
              · intro _
                rw [happ]
                exact (by decide : Stage.install ∉
                  [Stage.resolve, Stage.compare, Stage.download, Stage.verifyChecksum])
              · intro e hl; exact Except.noConfusion hl
            | true =>
              cases ir with
              | some e4 =>
                have happ : app ⟨iv, Except.ok latest0, Except.ok p, Except.ok true, some e4⟩
                    = (pipelineOrder, some ("failed to install Go: " ++ e4)) := by
                  simp only [app, hnu]
                  rfl
                refine ⟨?_, ?_, hnotfalse, ?_, ?_, hnodl⟩
                · rw [happ]
                · rw [happ]
                  exact (by decide : List.Nodup pipelineOrder)
                · intro hv; simp at hv
                · intro e hl; exact Except.noConfusion hl
              | none =>
                have happ : app ⟨iv, Except.ok latest0, Except.ok p, Except.ok true, none⟩
                    = (pipelineOrder, none) := by
                  simp only [app, hnu]
                  rfl
                refine ⟨?_, ?_, hnotfalse, ?_, ?_, hnodl⟩
                · rw [happ]
                · rw [happ]
                  exact (by decide : List.Nodup pipelineOrder)
                · intro hv; simp at hv
                · intro e hl; exact Except.noConfusion hl

/-- C8 witness: the theorem applied at two concrete environments, one
that needs no update and stops after compare, and one whose checksum
verdict is false, where install is never executed. -/
theorem app_stage_order_and_aborts_check :
    app ⟨"1.22.3", Except.ok "1.22.3", Except.ok "/tmp/f", Except.ok true, none⟩
        = ([Stage.resolve, Stage.compare], none)
    ∧ Stage.install ∉
        (app ⟨"1.22.2", Except.ok "1.22.3", Except.ok "/tmp/f", Except.ok false, none⟩).1 :=
  ⟨(app_stage_order_and_aborts
      ⟨"1.22.3", Except.ok "1.22.3", Except.ok "/tmp/f", Except.ok true, none⟩).2.2.1
      "1.22.3" rfl (by decide),
    (app_stage_order_and_aborts
      ⟨"1.22.2", Except.ok "1.22.3", Except.ok "/tmp/f", Except.ok false, none⟩).2.2.2.1 rfl⟩
